import Mathlib

/-!
Verification of the toy-docker container runtime core.

This file gives a shallow embedding of the container lifecycle code
(`internal/run`): the host-side orchestration (`RunContainer`,
`ensureBridge`, `configurePorts`, `waitForChildNetns`, `writeResolvConf`)
and the in-namespace init sequence (`Init`, `waitForVeth`).  External
commands (`mount`, `ip`, `iptables`, ...) are modelled as actions in a
trace, or as explicit state transitions where a claim is about the
resulting host state; observations of the outside world (namespace
identities, rename outcomes, environment variables, resolver files) are
parameters of the embedded functions.  Go byte strings are modelled as
Lean `String` (all relevant data is ASCII); Go string helpers
(`strings.Split` for the one-character separators the code uses,
`strings.TrimSpace`, `strings.HasPrefix`, `strings.Fields`) are embedded
as structurally recursive functions on the character data so that all
definitions evaluate inside the kernel.
-/

namespace ToyDocker

/-- Splitting of a character list at a separator character, the
semantics of Go `strings.Split` for a one-character separator (both
separators used by the code, `;` and `:`, are one character).  Splitting
the empty string yields one empty piece, as in Go. -/
def splitChars (sep : Char) : List Char → List (List Char)
  | [] => [[]]
  | c :: cs =>
    let r := splitChars sep cs
    if c = sep then [] :: r
    else
      match r with
      | h :: t => (c :: h) :: t
      | [] => [[c]]

/-- Embedding of Go `strings.Split(s, sep)` for a one-character
separator. -/
def goSplit (s : String) (sep : Char) : List String :=
  (splitChars sep s.data).map List.asString

/-- ASCII whitespace as recognized by Go `unicode.IsSpace` (the
non-ASCII space code points do not occur in the data handled here). -/
def goIsSpace (c : Char) : Bool :=
  c = ' ' || c = '\t' || c = '\n' || c = '\x0b' || c = '\x0c' || c = '\r'

/-- Embedding of Go `strings.TrimSpace` for ASCII text. -/
def goTrimSpace (s : String) : String :=
  (((s.data.dropWhile goIsSpace).reverse.dropWhile goIsSpace).reverse).asString

/-- Embedding of Go `strings.HasPrefix`. -/
def goStartsWith (s pre : String) : Bool :=
  pre.data.isPrefixOf s.data

/-- Splitting of a character list at every character satisfying `p`
(empty pieces retained). -/
def splitCharsIf (p : Char → Bool) : List Char → List (List Char)
  | [] => [[]]
  | c :: cs =>
    let r := splitCharsIf p cs
    if p c then [] :: r
    else
      match r with
      | h :: t => (c :: h) :: t
      | [] => [[c]]

/-- Embedding of Go `strings.Fields` for ASCII text: split on whitespace
and drop the empty pieces. -/
def goFields (s : String) : List String :=
  ((splitCharsIf goIsSpace s.data).filter (fun f => f ≠ [])).map List.asString

/-- Bridge device name, from the `const` block of the run package. -/
def bridgeName : String := "toy0"

/-- Bridge address in CIDR form, from the `const` block of the run package. -/
def bridgeCIDR : String := "10.200.0.1/24"

/-- Container subnet, from the `const` block of the run package. -/
def netRange : String := "10.200.0.0/24"

/-- One observable step of the container init sequence.  `mustRun` is an
external command run through `exec.MustRun` (panics on failure);
`runOrErrStep` is `exec.RunOrErr` whose error is turned into a panic at
the call site; `runOutStep` is `exec.RunOut` whose error is turned into a
panic at the call site; `mkdirAllSoft` is the `os.MkdirAll` in the volume
loop whose error is ignored; `mkdirAllHard` is the `os.MkdirAll` for the
old-root holder, which panics on failure; `chdirStep` is `os.Chdir`;
`waitVethStep` is the bounded `waitForVeth` poll (panics on timeout). -/
inductive InitAction where
  | mustRun (desc : String) (argv : List String)
  | runOrErrStep (desc : String) (argv : List String)
  | runOutStep (desc : String) (argv : List String)
  | mkdirAllSoft (path : String)
  | mkdirAllHard (path : String)
  | chdirStep (path : String)
  | waitVethStep (name : String)
deriving DecidableEq

/-- Actions performed by the volume loop of `Init` for a list of
semicolon-split segments: an empty segment is skipped; otherwise the
segment is split on `:`; Go indexes `parts[0]` and `parts[1]`, so a
segment with fewer than two fields panics with index-out-of-range before
its `MkdirAll`/`mount` run — modelled as stopping with flag `false` and
no further actions.  A well-formed segment contributes the (error-ignored)
`MkdirAll` of the container-side path followed by the bind mount. -/
def volActions (rootfs : String) : List String → List InitAction × Bool
  | [] => ([], true)
  | v :: rest =>
    if v = "" then volActions rootfs rest
    else
      match goSplit v ':' with
      | src :: d :: _ =>
        let dst := rootfs ++ d
        let r := volActions rootfs rest
        (InitAction.mkdirAllSoft dst ::
         InitAction.mustRun "[fs] mount volume" ["mount", "--bind", src, dst] :: r.1, r.2)
      | _ => ([], false)

/-- One installed DNAT rule: `iptables -t nat -A PREROUTING -p tcp --dport
hostPort -j DNAT --to-destination dest` where `dest` is `ip:containerPort`. -/
structure DnatRule where
  hostPort : String
  dest : String
deriving DecidableEq

/-- Rules installed by the loop body of `configurePorts` over the
semicolon-split segments, with the error (if any) that ends the loop:
empty segments are skipped; a segment that does not split on `:` into
exactly two fields stops the loop with the `invalid port mapping` error
and installs nothing further; a well-formed `hp:cp` segment appends one
DNAT rule to `ip:cp` and continues. -/
def portRules (ip : String) : List String → List DnatRule × Option String
  | [] => ([], none)
  | p :: rest =>
    if p = "" then portRules ip rest
    else
      match goSplit p ':' with
      | [hp, cp] =>
        let r := portRules ip rest
        (⟨hp, ip ++ ":" ++ cp⟩ :: r.1, r.2)
      | _ => ([], some ("invalid port mapping: " ++ p))

/-- Embedding of `configurePorts(ip, ports)`: an empty ports string
installs nothing and succeeds; otherwise the string is split on `;` and
processed by `portRules`. -/
def configurePorts (ip ports : String) : List DnatRule × Option String :=
  if ports = "" then ([], none)
  else portRules ip (goSplit ports ';')

/-- Events observable in `waitForChildNetns`: one `Readlink` of
`/proc/self/ns/net` (the host identity), and one `Readlink` of
`/proc/<pid>/ns/net` per loop iteration. -/
inductive NetnsEvent where
  | readHostNetns
  | readChildNetns (attempt : Nat)
deriving DecidableEq

/-- Whether loop iteration `i` of `waitForChildNetns` observes a child
namespace identity different from the host identity: `obs i` is the
outcome of the `Readlink` at iteration `i` (`none` models a read error,
in which case the loop just retries). -/
def flipsAt (hostNetns : String) (obs : Nat → Option String) (i : Nat) : Bool :=
  match obs i with
  | some c => decide (c ≠ hostNetns)
  | none => false

/-- The retry loop of `waitForChildNetns`, iterating from index `i` with
`fuel` iterations left (the code runs `for i := 0; i < 50; i++`).  Each
iteration reads the child identity; on a successful read that differs
from the host identity it returns success at once, otherwise it sleeps
and retries.  Returns the success flag and the list of read events. -/
def netnsLoop (hostNetns : String) (obs : Nat → Option String) :
    Nat → Nat → Bool × List NetnsEvent
  | _, 0 => (false, [])
  | i, fuel + 1 =>
    match obs i with
    | some childNetns =>
      if childNetns ≠ hostNetns then (true, [NetnsEvent.readChildNetns i])
      else
        let r := netnsLoop hostNetns obs (i + 1) fuel
        (r.1, NetnsEvent.readChildNetns i :: r.2)
    | none =>
      let r := netnsLoop hostNetns obs (i + 1) fuel
      (r.1, NetnsEvent.readChildNetns i :: r.2)

/-- Embedding of `waitForChildNetns`: read the host identity once (a
`readHostNetns` event), then run the 50-iteration retry loop.  A `true`
flag is the `return nil` on the first observed inequality; `false` is
the `timed out waiting for child netns` error. -/
def waitForChildNetns (hostNetns : String) (obs : Nat → Option String) :
    Bool × List NetnsEvent :=
  let r := netnsLoop hostNetns obs 0 50
  (r.1, NetnsEvent.readHostNetns :: r.2)

/-- The retry loop of the child-side `waitForVeth`, iterating from index
`i` with `fuel` iterations left (the code runs `for i := 0; i < 50; i++`).
`renameOk i` is whether the rename attempt `ip link set <name> name eth0`
at iteration `i` succeeds.  Returns the success flag and the number of
rename attempts performed. -/
def vethLoop (renameOk : Nat → Bool) : Nat → Nat → Bool × Nat
  | _, 0 => (false, 0)
  | i, fuel + 1 =>
    if renameOk i then (true, 1)
    else
      let r := vethLoop renameOk (i + 1) fuel
      (r.1, r.2 + 1)

/-- Embedding of `waitForVeth(name)`: run the 50-attempt rename loop;
success returns `nil` (here `Except.ok`), exhaustion returns the
`veth <name> not present in netns` timeout error. -/
def waitForVeth (name : String) (renameOk : Nat → Bool) : Except String Unit × Nat :=
  let r := vethLoop renameOk 0 50
  (if r.1 then Except.ok () else Except.error ("veth " ++ name ++ " not present in netns"), r.2)

/-- The six parameters `Init` reads from its inherited environment. -/
structure InitEnv where
  rootfs : String
  cid : String
  cip : String
  veth : String
  vols : String
  cmd : String
deriving DecidableEq

/-- Embedding of Go `os.Getenv`: an environment is a partial map from
keys to values, and an absent key reads as the empty string. -/
def getEnvStr (env : String → Option String) (k : String) : String :=
  (env k).getD ""

/-- The opening lines of `Init`: read `ROOTFS`, `CID`, `CIP`, `VETH`,
`VOLUMES` and `CMD` via `os.Getenv`.  The code performs no check that
any of these keys is present. -/
def readInitEnv (env : String → Option String) : InitEnv :=
  ⟨getEnvStr env "ROOTFS", getEnvStr env "CID", getEnvStr env "CIP",
   getEnvStr env "VETH", getEnvStr env "VOLUMES", getEnvStr env "CMD"⟩

/-- The actions of `Init` after the volume loop, in source order:
loopback up, the veth wait/rename, address assignment, bringing `eth0`
up, the default route, the hostname, the old-root holder directory
(`filepath.Join(rootfs, "old_root")`, modelled as string concatenation
for a clean rootfs path), `pivot_root`, `chdir /`, the fresh `/proc`
mount, the lazy unmount of the old root, the diagnostic `ip addr`
listing, and finally the `exec` of the user command. -/
def postVolActions (e : InitEnv) : List InitAction :=
  [InitAction.mustRun "[net] set loopback up" ["ip", "link", "set", "lo", "up"],
   InitAction.waitVethStep e.veth,
   InitAction.mustRun "[net] assign IP" ["ip", "addr", "add", e.cip ++ "/24", "dev", "eth0"],
   InitAction.mustRun "[net] bring eth0 up" ["ip", "link", "set", "eth0", "up"],
   InitAction.mustRun "[net] set default route" ["ip", "route", "add", "default", "via", "10.200.0.1"],
   InitAction.mustRun "[net] set hostname" ["hostname", "toy-" ++ e.cid],
   InitAction.mkdirAllHard (e.rootfs ++ "/old_root"),
   InitAction.runOrErrStep "[fs] pivot_root" ["pivot_root", e.rootfs, e.rootfs ++ "/old_root"],
   InitAction.chdirStep "/",
   InitAction.mustRun "[fs] mount proc" ["mount", "-t", "proc", "blabla", "/proc"],
   InitAction.mustRun "[fs] umount old_root" ["umount", "-l", "/old_root"],
   InitAction.runOutStep "[net] show IP" ["ip", "addr"],
   InitAction.mustRun "[fs] exec cmd" ["/bin/bash", "-c", "exec " ++ e.cmd]]

/-- The full action sequence of `Init` for a given parameter set: the
netns-handle export to the marker path, the recursive make-private, the
rootfs self bind-mount, the recursive `/dev` bind, then the volume loop,
and (if the volume loop did not panic) the rest of the sequence.  The
flag records whether the sequence ran to completion rather than
panicking inside the volume loop. -/
def containerInitActions (e : InitEnv) : List InitAction × Bool :=
  let nsfile := "/var/run/toy-" ++ e.cid ++ ".ns"
  let vols := volActions e.rootfs (goSplit e.vols ';')
  let tailActs := if vols.2 then vols.1 ++ postVolActions e else vols.1
  (InitAction.mustRun "[fs] mount namespace" ["mount", "--bind", "/proc/self/ns/net", nsfile] ::
   InitAction.mustRun "[fs] mount private" ["mount", "--make-rprivate", "/"] ::
   InitAction.mustRun "[fs] mount rootfs(hack)" ["mount", "--bind", e.rootfs, e.rootfs] ::
   InitAction.mustRun "[fs] mount dev" ["mount", "--rbind", "/dev", e.rootfs ++ "/dev"] ::
   tailActs, vols.2)

/-- Whether a failure of this action aborts `Init`.  Every step panics on
failure except the `os.MkdirAll` in the volume loop, whose return value
the code ignores. -/
def fatalStep : InitAction → Bool
  | InitAction.mkdirAllSoft _ => false
  | _ => true

/-- Execution of an `Init` action list against an environment in which
`fails` says which actions fail: actions run in order; a failing fatal
action panics, ending the run with the actions attempted so far and flag
`false`; a failing non-fatal action is ignored. -/
def runInitSteps (fails : InitAction → Bool) : List InitAction → List InitAction × Bool
  | [] => ([], true)
  | a :: rest =>
    if fatalStep a && fails a then ([a], false)
    else
      let r := runInitSteps fails rest
      (a :: r.1, r.2)

/-- Host-side network state visible to `ensureBridge`: the link devices
present, the per-device addresses assigned, the devices brought up, the
IPv4 forwarding sysctl, and the appended iptables rules (as argv
suffixes). -/
structure HostNet where
  links : List String
  addrs : List (String × String)
  linksUp : List String
  ipForward : Bool
  fwRules : List (List String)
deriving DecidableEq

/-- Arguments of the POSTROUTING masquerade rule installed by
`ensureBridge`. -/
def masqueradeRule : List String :=
  ["-t", "nat", "-A", "POSTROUTING", "-s", netRange, "!", "-o", bridgeName, "-j", "MASQUERADE"]

/-- Arguments of the FORWARD accept rule for traffic entering from the
bridge. -/
def forwardAcceptRule : List String :=
  ["-A", "FORWARD", "-i", bridgeName, "-j", "ACCEPT"]

/-- Arguments of the FORWARD accept rule for established/related traffic
leaving towards the bridge. -/
def forwardEstablishedRule : List String :=
  ["-A", "FORWARD", "-o", bridgeName, "-m", "conntrack", "--ctstate", "RELATED,ESTABLISHED", "-j", "ACCEPT"]

/-- Mutating actions `ensureBridge` can perform. -/
inductive BridgeAction where
  | addBridge
  | assignAddr
  | bringUp
  | enableForward
  | addRule (args : List String)
deriving DecidableEq

/-- Substring search on character lists: whether `needle` occurs as a
contiguous run inside the second list. -/
def containsChars (needle : List Char) : List Char → Bool
  | [] => needle.isEmpty
  | c :: t => needle.isPrefixOf (c :: t) || containsChars needle t

/-- Embedding of Go `strings.Contains(s, sub)`. -/
def goContains (s sub : String) : Bool :=
  containsChars sub.data s.data

/-- The create path of `ensureBridge`, reached when the early return is
not taken.  Its first command, `ip link add toy0 type bridge`, fails
when the device already exists (RTNETLINK: File exists), in which case
`RunOrErr` wraps the failure with the step description `add bridge` and
`ensureBridge` aborts with that error; the remaining commands of the
path (address, up, sysctl, the three iptables appends) have no such
intrinsic failure mode and are modelled as succeeding. -/
def createBridge (s : HostNet) : Except String (HostNet × List BridgeAction) :=
  if bridgeName ∈ s.links then Except.error "add bridge"
  else
    Except.ok
      ({ links := s.links ++ [bridgeName]
         addrs := s.addrs ++ [(bridgeName, bridgeCIDR)]
         linksUp := s.linksUp ++ [bridgeName]
         ipForward := true
         fwRules := s.fwRules ++ [masqueradeRule, forwardAcceptRule, forwardEstablishedRule] },
       [BridgeAction.addBridge, BridgeAction.assignAddr, BridgeAction.bringUp,
        BridgeAction.enableForward, BridgeAction.addRule masqueradeRule,
        BridgeAction.addRule forwardAcceptRule, BridgeAction.addRule forwardEstablishedRule])

/-- Embedding of `ensureBridge()`.  The source queries existence with
`exec.RunOut("ip", "link", "show", bridgeName)`, but `RunOut`'s
signature is `RunOut(desc, name string, args ...string)`: the literal
`"ip"` is consumed as the description and the executed command is
`link show toy0` — the coreutils `link` tool, not an iproute2 query.
`showOut` is that command's observed outcome (`none` a failure, `some
out` a success whose combined output is `out`); the early `return nil`
is taken exactly when the command succeeded and its output contains the
bridge name, as in the source; otherwise the create path runs. -/
def ensureBridge (s : HostNet) (showOut : Option String) :
    Except String (HostNet × List BridgeAction) :=
  if (match showOut with
      | some out => goContains out bridgeName
      | none => false) then
    Except.ok (s, [])
  else createBridge s

/-- Embedding of the IP allocation in `RunContainer`:
`fmt.Sprintf("10.200.0.%d", 10+os.Getpid()%200)`.  `os.Getpid` is
non-negative, so Go `%` agrees with `Nat` remainder. -/
def allocateAddress (pid : Nat) : String :=
  "10.200.0." ++ Nat.repr (10 + pid % 200)

/-- Embedding of the container identity in `RunContainer`:
`fmt.Sprintf("%d-%d", os.Getpid(), os.Getpid()+12345)`. -/
def containerID (pid : Nat) : String :=
  Nat.repr pid ++ "-" ++ Nat.repr (pid + 12345)

/-- Go byte-slicing `s[:n]` on the identity string, which is pure ASCII,
so byte indices and character indices coincide. -/
def takeBytes (s : String) (n : Nat) : String :=
  (s.data.take n).asString

/-- Host-side veth name: `"vethh" + cid[:6]`. -/
def vethHost (pid : Nat) : String :=
  "vethh" ++ takeBytes (containerID pid) 6

/-- Container-side veth name: `"vethc" + cid[:6]`. -/
def vethCont (pid : Nat) : String :=
  "vethc" ++ takeBytes (containerID pid) 6

/-- Accumulator of the `writeResolvConf` filter: the lines written to
the output buffer so far (every write appends a newline, so the buffer
is non-empty exactly when this list is non-empty), the set of nameserver
addresses already emitted, and the count of emitted nameservers. -/
structure ResolvState where
  outLines : List String
  seen : List String
  added : Nat
deriving DecidableEq

/-- One iteration of the scan loop of `writeResolvConf`: trim the line;
a `nameserver` line with at least two fields whose address is neither
`127.`-scoped nor `::1` and not yet seen is emitted (deduplicated) and
counted; other `nameserver` lines are dropped; any other line is copied
verbatim. -/
def resolvScanStep (st : ResolvState) (text : String) : ResolvState :=
  let line := goTrimSpace text
  if goStartsWith line "nameserver" then
    match goFields line with
    | _ :: ns :: _ =>
      if goStartsWith ns "127." || ns = "::1" then st
      else if ns ∈ st.seen then st
      else ⟨st.outLines ++ ["nameserver " ++ ns], st.seen ++ [ns], st.added + 1⟩
    | _ => st
  else ⟨st.outLines ++ [text], st.seen, st.added⟩

/-- One iteration of the fallback loop of `writeResolvConf`: a public
resolver already seen is skipped; otherwise, if no nameserver has been
added yet and the buffer is non-empty, the buffer is reset before the
resolver line is appended. -/
def resolvFallbackStep (st : ResolvState) (ns : String) : ResolvState :=
  if ns ∈ st.seen then st
  else
    let base := if st.added = 0 ∧ st.outLines ≠ [] then [] else st.outLines
    ⟨base ++ ["nameserver " ++ ns], st.seen ++ [ns], st.added + 1⟩

/-- The public fallback resolvers appended by `writeResolvConf`. -/
def publicResolvers : List String := ["1.1.1.1", "8.8.8.8"]

/-- The scan phase of `writeResolvConf` over the host resolver lines. -/
def resolvScan (hostLines : List String) : ResolvState :=
  hostLines.foldl resolvScanStep ⟨[], [], 0⟩

/-- The lines `writeResolvConf` writes into the container rootfs for a
given list of host resolver-file lines: the scan phase followed by the
public-resolver fallback phase. -/
def resolvConfLines (hostLines : List String) : List String :=
  (publicResolvers.foldl resolvFallbackStep (resolvScan hostLines)).outLines

/-- C1: volume parsing yields the mappings of
`"/host/a:/cont/a;/host/b:/cont/b"` in input order (for each mapping the
container-side mkdir followed by the bind mount of that host path, first
mapping first), an empty segment is skipped, and a malformed segment —
one with no `:`, hence no host:container structure — is rejected (the
process panics) with no mount attempted for it and nothing after it. -/
theorem volume_parse_ordered_skip_reject :
    (∀ rootfs : String,
      volActions rootfs (goSplit "/host/a:/cont/a;/host/b:/cont/b" ';') =
        ([InitAction.mkdirAllSoft (rootfs ++ "/cont/a"),
          InitAction.mustRun "[fs] mount volume" ["mount", "--bind", "/host/a", rootfs ++ "/cont/a"],
          InitAction.mkdirAllSoft (rootfs ++ "/cont/b"),
          InitAction.mustRun "[fs] mount volume" ["mount", "--bind", "/host/b", rootfs ++ "/cont/b"]],
         true))
    ∧ (∀ (rootfs : String) (rest : List String),
        volActions rootfs ("" :: rest) = volActions rootfs rest)
    ∧ (∀ (rootfs v : String) (rest : List String), v ≠ "" → goSplit v ':' = [v] →
        volActions rootfs (v :: rest) = ([], false)) := by
  refine ⟨fun rootfs => rfl, fun rootfs rest => by simp [volActions], ?_⟩
  intro rootfs v rest hv hsp
  simp [volActions, hv, hsp]

/-- Witness for C1: the malformed segment `"bad"` is rejected with no
mount attempted, even with a well-formed segment after it. -/
theorem volume_parse_ordered_skip_reject_witness :
    ("bad" ≠ "" ∧ goSplit "bad" ':' = ["bad"]) ∧
    volActions "/r" ["bad", "/h:/c"] = ([], false) :=
  ⟨⟨by decide, by decide⟩,
   volume_parse_ordered_skip_reject.2.2 "/r" "bad" ["/h:/c"] (by decide) (by decide)⟩

/-- C5: port forwarding installs exactly one DNAT rule per well-formed
`hostPort:containerPort` mapping (`"8080:80"` with address `10.200.0.37`
installs exactly the rule to `10.200.0.37:80`); a mapping that does not
split on `:` into exactly two fields yields a descriptive error and no
rule is installed for it or any later mapping (rules of earlier
mappings stay); the input `"8080"` yields the descriptive error with
zero rules installed; empty segments are skipped. -/
theorem port_forwarding_rules :
    (configurePorts "10.200.0.37" "8080:80" = ([⟨"8080", "10.200.0.37:80"⟩], none))
    ∧ (configurePorts "10.200.0.37" "8080" = ([], some "invalid port mapping: 8080"))
    ∧ (∀ (ip p : String) (rest : List String) (hp cp : String), goSplit p ':' = [hp, cp] →
        portRules ip (p :: rest) =
          (⟨hp, ip ++ ":" ++ cp⟩ :: (portRules ip rest).1, (portRules ip rest).2))
    ∧ (∀ (ip p : String) (rest : List String), p ≠ "" → (goSplit p ':').length ≠ 2 →
        portRules ip (p :: rest) = ([], some ("invalid port mapping: " ++ p)))
    ∧ (∀ (ip : String) (rest : List String), portRules ip ("" :: rest) = portRules ip rest) := by
  refine ⟨by decide, by decide, ?_, ?_, fun ip rest => by simp [portRules]⟩
  · intro ip p rest hp cp hsp
    have hv : p ≠ "" := by
      intro h
      subst h
      simp [goSplit, splitChars] at hsp
    simp [portRules, hv, hsp]
  · intro ip p rest hv hlen
    rcases hsp : goSplit p ':' with _ | ⟨a, _ | ⟨b, _ | ⟨c, t⟩⟩⟩
    · simp [portRules, hv, hsp]
    · simp [portRules, hv, hsp]
    · rw [hsp] at hlen
      simp at hlen
    · simp [portRules, hv, hsp]

/-- Witness for C5: a well-formed mapping installs exactly its rule; the
malformed mapping `"x"` errors with nothing installed. -/
theorem port_forwarding_rules_witness :
    (goSplit "9000:90" ':' = ["9000", "90"]) ∧
    portRules "10.0.0.1" ["9000:90"] =
      (⟨"9000", "10.0.0.1:90"⟩ :: (portRules "10.0.0.1" []).1, (portRules "10.0.0.1" []).2) ∧
    ("x" ≠ "" ∧ (goSplit "x" ':').length ≠ 2) ∧
    portRules "10.0.0.1" ["x", "1:2"] = ([], some "invalid port mapping: x") :=
  ⟨by decide,
   port_forwarding_rules.2.2.1 "10.0.0.1" "9000:90" [] "9000" "90" (by decide),
   ⟨by decide, by decide⟩,
   port_forwarding_rules.2.2.2.1 "10.0.0.1" "x" ["1:2"] (by decide) (by decide)⟩

/-- C8: the allocated address is `10.200.0.(10 + pid % 200)`, whose host
octet always lies in `[10, 209]`, and any two process ids congruent
modulo 200 yield the same address (the allocation is a pure function of
the pid; no reservation state exists in the embedding, mirroring the
code). -/
theorem address_allocation_bounded_deterministic :
    (∀ pid : Nat, allocateAddress pid = "10.200.0." ++ Nat.repr (10 + pid % 200)
      ∧ 10 ≤ 10 + pid % 200 ∧ 10 + pid % 200 ≤ 209)
    ∧ (∀ p q : Nat, p % 200 = q % 200 → allocateAddress p = allocateAddress q) :=
  ⟨fun pid => ⟨rfl, by omega, by omega⟩,
   fun p q h => by simp [allocateAddress, h]⟩

/-- Witness for C8: pids 207 and 7 are congruent modulo 200 and receive
the same address. -/
theorem address_allocation_bounded_deterministic_witness :
    207 % 200 = 7 % 200 ∧ allocateAddress 207 = allocateAddress 7 :=
  ⟨by decide, address_allocation_bounded_deterministic.2 207 7 (by decide)⟩

theorem netnsLoop_count_host (h : String) (obs : Nat → Option String) :
    ∀ fuel i, ((netnsLoop h obs i fuel).2.count NetnsEvent.readHostNetns) = 0 := by
  intro fuel
  induction fuel with
  | zero => intro i; simp [netnsLoop]
  | succ f ih =>
    intro i
    simp only [netnsLoop]
    cases hob : obs i with
    | some c =>
      by_cases hc : c ≠ h
      · simp [hc, List.count_cons]
      · simp [hc, List.count_cons, ih (i + 1)]
    | none => simp [List.count_cons, ih (i + 1)]

theorem netnsLoop_no_flip (h : String) (obs : Nat → Option String) :
    ∀ fuel i, (∀ j, i ≤ j → j < i + fuel → flipsAt h obs j = false) →
      netnsLoop h obs i fuel = (false, (List.range' i fuel).map NetnsEvent.readChildNetns) := by
  intro fuel
  induction fuel with
  | zero => intro i _; simp [netnsLoop]
  | succ f ih =>
    intro i hno
    have hi : flipsAt h obs i = false := hno i (Nat.le_refl i) (by omega)
    have htail : netnsLoop h obs (i + 1) f =
        (false, (List.range' (i + 1) f).map NetnsEvent.readChildNetns) :=
      ih (i + 1) (fun j h1 h2 => hno j (by omega) (by omega))
    simp only [netnsLoop]
    cases hob : obs i with
    | some c =>
      have hc : ¬ c ≠ h := by
        simp [flipsAt, hob] at hi
        simp [hi]
      simp [hc, htail, List.range'_succ]
    | none => simp [htail, List.range'_succ]

theorem netnsLoop_first_flip (h : String) (obs : Nat → Option String) :
    ∀ fuel i m, i ≤ m → m < i + fuel → flipsAt h obs m = true →
      (∀ j, i ≤ j → j < m → flipsAt h obs j = false) →
      netnsLoop h obs i fuel =
        (true, (List.range' i (m - i + 1)).map NetnsEvent.readChildNetns) := by
  intro fuel
  induction fuel with
  | zero => intro i m h1 h2 _ _; omega
  | succ f ih =>
    intro i m h1 h2 hm hno
    by_cases him : i = m
    · subst him
      cases hob : obs i with
      | some c =>
        have hc : c ≠ h := by
          simp [flipsAt, hob] at hm
          exact hm
        simp [netnsLoop, hob, hc, List.range'_succ]
      | none => simp [flipsAt, hob] at hm
    · have hi : flipsAt h obs i = false := hno i (Nat.le_refl i) (by omega)
      have htail : netnsLoop h obs (i + 1) f =
          (true, (List.range' (i + 1) (m - (i + 1) + 1)).map NetnsEvent.readChildNetns) :=
        ih (i + 1) m (by omega) (by omega) hm (fun j hj1 hj2 => hno j (by omega) hj2)
      have hrange : List.range' i (m - i + 1) = i :: List.range' (i + 1) (m - (i + 1) + 1) := by
        have : m - i + 1 = (m - (i + 1) + 1) + 1 := by omega
        rw [this, List.range'_succ]
      simp only [netnsLoop]
      cases hob : obs i with
      | some c =>
        have hc : ¬ c ≠ h := by
          simp [flipsAt, hob] at hi
          simp [hi]
        simp [hc, htail, hrange]
      | none => simp [htail, hrange]

/-- C3: the host-side wait reads the host namespace identity exactly
once; for a child that never shows a different identity within the
budget it returns the timeout failure after exactly 50 child reads; and
for a child whose identity first differs at attempt `m < 50` it returns
success exactly then, having performed exactly the reads `0..m`.  A
`false` flag is the `TimeoutError`; a `true` flag is the single success
return at the first observed inequality. -/
theorem host_netns_wait_poll (h : String) (obs : Nat → Option String) :
    ((waitForChildNetns h obs).2.count NetnsEvent.readHostNetns = 1)
    ∧ ((∀ j, j < 50 → flipsAt h obs j = false) →
        waitForChildNetns h obs =
          (false, NetnsEvent.readHostNetns :: (List.range 50).map NetnsEvent.readChildNetns))
    ∧ (∀ m, m < 50 → flipsAt h obs m = true → (∀ j, j < m → flipsAt h obs j = false) →
        waitForChildNetns h obs =
          (true, NetnsEvent.readHostNetns ::
            (List.range (m + 1)).map NetnsEvent.readChildNetns)) := by
  refine ⟨?_, ?_, ?_⟩
  · simp [waitForChildNetns, List.count_cons, netnsLoop_count_host]
  · intro hno
    have := netnsLoop_no_flip h obs 50 0 (fun j h1 h2 => hno j (by omega))
    simp [waitForChildNetns, this, List.range_eq_range']
  · intro m hm hflip hno
    have := netnsLoop_first_flip h obs 50 0 m (by omega) (by omega) hflip
      (fun j h1 h2 => hno j h2)
    simp only [Nat.sub_zero] at this
    simp [waitForChildNetns, this, List.range_eq_range']

/-- Witness for C3: a child that never flips (always the host identity)
times out after 50 reads; a child that first differs at attempt 2
succeeds there. -/
theorem host_netns_wait_poll_witness :
    ((∀ j, j < 50 → flipsAt "ns:[1]" (fun _ => some "ns:[1]") j = false) ∧
      waitForChildNetns "ns:[1]" (fun _ => some "ns:[1]") =
        (false, NetnsEvent.readHostNetns :: (List.range 50).map NetnsEvent.readChildNetns)) ∧
    ((2 < 50 ∧ flipsAt "ns:[1]" (fun i => if i = 2 then some "ns:[2]" else some "ns:[1]") 2 = true ∧
      (∀ j, j < 2 → flipsAt "ns:[1]" (fun i => if i = 2 then some "ns:[2]" else some "ns:[1]") j = false)) ∧
      waitForChildNetns "ns:[1]" (fun i => if i = 2 then some "ns:[2]" else some "ns:[1]") =
        (true, NetnsEvent.readHostNetns :: (List.range 3).map NetnsEvent.readChildNetns)) :=
  ⟨⟨by decide, (host_netns_wait_poll "ns:[1]" (fun _ => some "ns:[1]")).2.1 (by decide)⟩,
   ⟨⟨by decide, by decide, by decide⟩,
    (host_netns_wait_poll "ns:[1]" (fun i => if i = 2 then some "ns:[2]" else some "ns:[1]")).2.2
      2 (by decide) (by decide) (by decide)⟩⟩

theorem vethLoop_no_success (ok : Nat → Bool) :
    ∀ fuel i, (∀ j, i ≤ j → j < i + fuel → ok j = false) → vethLoop ok i fuel = (false, fuel) := by
  intro fuel
  induction fuel with
  | zero => intro i _; simp [vethLoop]
  | succ f ih =>
    intro i hno
    have hi : ok i = false := hno i (Nat.le_refl i) (by omega)
    have htail := ih (i + 1) (fun j h1 h2 => hno j (by omega) (by omega))
    simp [vethLoop, hi, htail]

theorem vethLoop_first_success (ok : Nat → Bool) :
    ∀ fuel i m, i ≤ m → m < i + fuel → ok m = true →
      (∀ j, i ≤ j → j < m → ok j = false) →
      vethLoop ok i fuel = (true, m - i + 1) := by
  intro fuel
  induction fuel with
  | zero => intro i m h1 h2 _ _; omega
  | succ f ih =>
    intro i m h1 h2 hm hno
    by_cases him : i = m
    · subst him
      simp [vethLoop, hm]
    · have hi : ok i = false := hno i (Nat.le_refl i) (by omega)
      have htail := ih (i + 1) m (by omega) (by omega) hm
        (fun j hj1 hj2 => hno j (by omega) hj2)
      have : m - i + 1 = (m - (i + 1) + 1) + 1 := by omega
      simp [vethLoop, hi, htail, this]

/-- C4: the child-side wait returns success as soon as one rename
attempt succeeds (at the first successful attempt `m < 50`, after
exactly `m + 1` attempts), and returns the `veth ... not present`
timeout error after exactly 50 attempts when every attempt fails. -/
theorem child_veth_wait_poll (name : String) (renameOk : Nat → Bool) :
    ((∀ j, j < 50 → renameOk j = false) →
      waitForVeth name renameOk =
        (Except.error ("veth " ++ name ++ " not present in netns"), 50))
    ∧ (∀ m, m < 50 → renameOk m = true → (∀ j, j < m → renameOk j = false) →
        waitForVeth name renameOk = (Except.ok (), m + 1)) := by
  constructor
  · intro hno
    have := vethLoop_no_success renameOk 50 0 (fun j h1 h2 => hno j (by omega))
    simp [waitForVeth, this]
  · intro m hm hok hno
    have := vethLoop_first_success renameOk 50 0 m (by omega) (by omega) hok
      (fun j h1 h2 => hno j h2)
    simp only [Nat.sub_zero] at this
    simp [waitForVeth, this]

/-- Witness for C4: a rename that never succeeds exhausts all 50
attempts and yields the timeout error; a rename first succeeding at
attempt 3 returns success after 4 attempts. -/
theorem child_veth_wait_poll_witness :
    ((∀ j, j < 50 → (fun _ : Nat => false) j = false) ∧
      waitForVeth "vethcx" (fun _ => false) =
        (Except.error ("veth " ++ "vethcx" ++ " not present in netns"), 50)) ∧
    ((3 < 50 ∧ (fun i : Nat => decide (i = 3)) 3 = true ∧
        (∀ j, j < 3 → (fun i : Nat => decide (i = 3)) j = false)) ∧
      waitForVeth "vethcx" (fun i => decide (i = 3)) = (Except.ok (), 4)) :=
  ⟨⟨by decide, (child_veth_wait_poll "vethcx" (fun _ => false)).1 (by decide)⟩,
   ⟨⟨by decide, by decide, by decide⟩,
    (child_veth_wait_poll "vethcx" (fun i => decide (i = 3))).2 3 (by decide) (by decide)
      (by decide)⟩⟩

/-- C7 refuted against the source: the existence query executes
`link show toy0` (the string `"ip"` fills `RunOut`'s desc parameter), a
command that either fails or succeeds printing nothing, so the early
no-op return is unreachable and `ensureBridge` behaves as its create
path on every input.  On a host whose bridge exists — in particular on
the second of two invocations from a bridge-less host — the create path
attempts `ip link add toy0 type bridge`, which fails, and the call
returns the `add bridge` error instead of succeeding with no action:
bridge-ensure in the source is not idempotent.  The surrounding comment
(`check if exists`) and log line show the check is the intent, so the
code, not the claim, is wrong. -/
theorem bridge_ensure_not_idempotent (showOut : Option String)
    (h : showOut = none ∨ showOut = some "") :
    (∀ s : HostNet, ensureBridge s showOut = createBridge s)
    ∧ (∀ s : HostNet, bridgeName ∈ s.links →
        ensureBridge s showOut = Except.error "add bridge")
    ∧ (∀ s : HostNet, bridgeName ∉ s.links →
        ∃ s1 acts, ensureBridge s showOut = Except.ok (s1, acts)
          ∧ bridgeName ∈ s1.links
          ∧ ensureBridge s1 showOut = Except.error "add bridge") := by
  have h1 : ∀ s : HostNet, ensureBridge s showOut = createBridge s := by
    rcases h with rfl | rfl
    · intro s
      rfl
    · intro s
      rfl
  refine ⟨h1, ?_, ?_⟩
  · intro s hs
    rw [h1 s, createBridge]
    simp [hs]
  · intro s hs
    rw [h1 s, createBridge]
    simp only [hs, if_false]
    refine ⟨_, _, rfl, by simp, ?_⟩
    rw [h1 _, createBridge]
    simp

/-- Witness for C7: with the query failing (as `link show toy0` does),
a host that already has the bridge gets the `add bridge` error, and
from the empty host the first call succeeds but the second errors
rather than acting as a no-op query. -/
theorem bridge_ensure_not_idempotent_witness :
    ((none : Option String) = none ∨ (none : Option String) = some "") ∧
    ensureBridge (HostNet.mk [bridgeName] [] [] false []) none = Except.error "add bridge" ∧
    (∃ s1 acts, ensureBridge (HostNet.mk [] [] [] false []) none = Except.ok (s1, acts)
      ∧ bridgeName ∈ s1.links
      ∧ ensureBridge s1 none = Except.error "add bridge") :=
  ⟨Or.inl rfl,
   (bridge_ensure_not_idempotent none (Or.inl rfl)).2.1
     (HostNet.mk [bridgeName] [] [] false []) (by decide),
   (bridge_ensure_not_idempotent none (Or.inl rfl)).2.2
     (HostNet.mk [] [] [] false []) (by decide)⟩

theorem length_le_toDigitsCore (f : Nat) :
    ∀ (n : Nat) (ds : List Char), ds.length ≤ (Nat.toDigitsCore 10 f n ds).length := by
  induction f with
  | zero => intro n ds; simp [Nat.toDigitsCore]
  | succ f ih =>
    intro n ds
    simp only [Nat.toDigitsCore]
    by_cases h : n / 10 = 0
    · simp [h]
    · simp only [h, if_false]
      have h1 := ih (n / 10) (Nat.digitChar (n % 10) :: ds)
      simp only [List.length_cons] at h1
      omega

theorem toDigitsCore_length_lower (k : Nat) :
    ∀ (f n : Nat) (ds : List Char), 10 ^ k ≤ n → n < f →
      k + 1 + ds.length ≤ (Nat.toDigitsCore 10 f n ds).length := by
  induction k with
  | zero =>
    intro f n ds hn hf
    match f with
    | 0 => omega
    | f + 1 =>
      simp only [Nat.toDigitsCore]
      by_cases h : n / 10 = 0
      · simp only [h, if_true]
        simp
        omega
      · simp only [h, if_false]
        have h1 := length_le_toDigitsCore f (n / 10) (Nat.digitChar (n % 10) :: ds)
        simp only [List.length_cons] at h1
        omega
  | succ k ih =>
    intro f n ds hn hf
    have hpow : 10 ≤ 10 ^ (k + 1) := by
      calc (10 : Nat) = 10 ^ 1 := by norm_num
      _ ≤ 10 ^ (k + 1) := Nat.pow_le_pow_right (by norm_num) (by omega)
    have h10 : 10 ≤ n := le_trans hpow hn
    have hdiv : n / 10 ≠ 0 := Nat.ne_of_gt (Nat.div_pos h10 (by norm_num))
    match f with
    | 0 => omega
    | f + 1 =>
      simp only [Nat.toDigitsCore, hdiv, if_false]
      have hk : 10 ^ k ≤ n / 10 := by
        rw [Nat.le_div_iff_mul_le (by norm_num : (0 : Nat) < 10)]
        calc 10 ^ k * 10 = 10 ^ (k + 1) := (pow_succ 10 k).symm
        _ ≤ n := hn
      have hdn : n / 10 < n := Nat.div_lt_self (by omega) (by norm_num)
      have h1 := ih f (n / 10) (Nat.digitChar (n % 10) :: ds) hk (by omega)
      simp only [List.length_cons] at h1
      omega

theorem repr_length_lower (k n : Nat) (h : 10 ^ k ≤ n) :
    k + 1 ≤ (Nat.repr n).length := by
  have h1 := toDigitsCore_length_lower k (n + 1) n [] h (by omega)
  simpa [Nat.repr, Nat.toDigits, String.length, List.asString] using h1

theorem repr_length_pos (n : Nat) : 1 ≤ (Nat.repr n).length := by
  match n with
  | 0 => decide
  | n + 1 => exact le_trans (by omega) (repr_length_lower 0 (n + 1) (by simp))

theorem containerID_length (pid : Nat) :
    (containerID pid).length = (Nat.repr pid).length + 1 + (Nat.repr (pid + 12345)).length := by
  simp [containerID, String.length_append]
  decide

/-- C9: for every pid the identity string `pid-(pid+12345)` has length
at least 7 (at least one digit, the dash, and at least five digits of a
number that is at least 12345), so the 6-byte slice used for device
naming is in bounds, has exactly 6 characters, and both derived veth
names are exactly 11 characters, within the 15-character interface-name
limit. -/
theorem container_identity_naming (pid : Nat) :
    7 ≤ (containerID pid).length
    ∧ (takeBytes (containerID pid) 6).length = 6
    ∧ (vethHost pid).length = 11
    ∧ (vethCont pid).length = 11
    ∧ (vethHost pid).length ≤ 15
    ∧ (vethCont pid).length ≤ 15 := by
  have h1 : 1 ≤ (Nat.repr pid).length := repr_length_pos pid
  have h2 : 5 ≤ (Nat.repr (pid + 12345)).length := by
    have : 10 ^ 4 ≤ pid + 12345 := by norm_num
    exact repr_length_lower 4 (pid + 12345) this
  have hlen : 7 ≤ (containerID pid).length := by
    rw [containerID_length]
    omega
  have htake : (takeBytes (containerID pid) 6).length = 6 := by
    have : (takeBytes (containerID pid) 6).length = min 6 (containerID pid).length := by
      rw [takeBytes, List.length_asString, List.length_take]
      rfl
    rw [this]
    omega
  have hhost : (vethHost pid).length = 11 := by
    rw [vethHost, String.length_append, htake]
    decide
  have hcont : (vethCont pid).length = 11 := by
    rw [vethCont, String.length_append, htake]
    decide

  exact ⟨hlen, htake, hhost, hcont, by omega, by omega⟩

theorem resolvScanStep_seen_length (st : ResolvState) (text : String)
    (h : st.seen.length = st.added) :
    (resolvScanStep st text).seen.length = (resolvScanStep st text).added := by
  unfold resolvScanStep
  by_cases h1 : goStartsWith (goTrimSpace text) "nameserver"
  · simp only [h1, if_true]
    rcases hf : goFields (goTrimSpace text) with _ | ⟨a, _ | ⟨ns, tl⟩⟩
    · simpa using h
    · simpa using h
    · by_cases h2 : goStartsWith ns "127." || ns = "::1"
      · simpa [h2] using h
      · by_cases h3 : ns ∈ st.seen
        · simpa [h2, h3] using h
        · simp [h2, h3, h]
  · simpa [h1] using h

theorem resolvScan_seen_length (hostLines : List String) :
    (resolvScan hostLines).seen.length = (resolvScan hostLines).added := by
  rw [resolvScan]
  generalize hst : (⟨[], [], 0⟩ : ResolvState) = st
  have h : st.seen.length = st.added := by rw [← hst]; rfl
  clear hst
  induction hostLines generalizing st with
  | nil => simpa using h
  | cons l rest ih =>
    simp only [List.foldl_cons]
    exact ih (resolvScanStep st l) (resolvScanStep_seen_length st l h)

/-- C10: if the scan phase of the resolver filter emitted no nameserver
(every nameserver line of the host file was loopback-scoped, malformed
or absent), then appending the first public fallback resolver discards
everything accumulated so far — including non-nameserver lines copied
from the host file — so the container resolver file consists of exactly
`nameserver 1.1.1.1` and `nameserver 8.8.8.8`, each once. -/
theorem resolv_fallback_discards (hostLines : List String)
    (h : (resolvScan hostLines).added = 0) :
    resolvConfLines hostLines = ["nameserver 1.1.1.1", "nameserver 8.8.8.8"] := by
  have hlen := resolvScan_seen_length hostLines
  rw [h] at hlen
  have hseen : (resolvScan hostLines).seen = [] := List.length_eq_zero.mp hlen
  rw [resolvConfLines, publicResolvers]
  rcases hst : resolvScan hostLines with ⟨out, seen, added⟩
  rw [hst] at h hseen
  simp only at h hseen
  subst h
  subst hseen
  simp only [List.foldl]
  by_cases hout : out = []
  · subst hout
    simp [resolvFallbackStep]
  · simp [resolvFallbackStep, hout]

/-- Witness for C10: a host file whose only nameserver is the systemd
loopback stub, plus a search line, is replaced wholesale by the two
public resolvers. -/
theorem resolv_fallback_discards_witness :
    (resolvScan ["nameserver 127.0.0.53", "search lan"]).added = 0 ∧
    resolvConfLines ["nameserver 127.0.0.53", "search lan"] =
      ["nameserver 1.1.1.1", "nameserver 8.8.8.8"] :=
  ⟨by decide, resolv_fallback_discards ["nameserver 127.0.0.53", "search lan"] (by decide)⟩

/-- Counterexample to the claim that the child role aborts when a
required parameter key is absent: with every key absent (each `Getenv`
returning the empty string) the init sequence still begins with step 1
— the netns-handle bind mount, here with the degenerate marker path
`/var/run/toy-.ns` — and the trace runs to completion instead of
aborting. -/
theorem init_missing_env_no_abort :
    (containerInitActions (readInitEnv (fun _ => none))).2 = true ∧
    (containerInitActions (readInitEnv (fun _ => none))).1.head? =
      some (InitAction.mustRun "[fs] mount namespace"
        ["mount", "--bind", "/proc/self/ns/net", "/var/run/toy-.ns"]) := by
  exact ⟨by decide, by decide⟩

/-- C2 as amended: the child role parses `ROOTFS`, `CID`, `CIP`, `VETH`,
`VOLUMES` and `CMD` from the inherited environment before step 1 of the
init sequence, but an absent key simply reads as the empty string: no
absence check exists and step 1 proceeds unconditionally for every
environment. -/
theorem init_env_parse_before_step1 (env : String → Option String) :
    readInitEnv env =
      ⟨(env "ROOTFS").getD "", (env "CID").getD "", (env "CIP").getD "",
       (env "VETH").getD "", (env "VOLUMES").getD "", (env "CMD").getD ""⟩ ∧
    (containerInitActions (readInitEnv env)).1.head? =
      some (InitAction.mustRun "[fs] mount namespace"
        ["mount", "--bind", "/proc/self/ns/net",
         "/var/run/toy-" ++ (env "CID").getD "" ++ ".ns"]) :=
  ⟨rfl, rfl⟩

/-- Whether an action is one of the volume bind mounts of the init
sequence. -/
def isVolMountAct : InitAction → Bool
  | InitAction.mustRun d _ => d = "[fs] mount volume"
  | _ => false

/-- The step order named by the specification for Container Init: netns
export to the marker path, recursive make-private, rootfs self-bind,
`/dev` bind, the volume bind mounts in mapping order, loopback up, the
veth wait/rename, address assignment, default route, hostname, old-root
holder directory, `pivot_root`, chdir to the new root, fresh `/proc`
mount, lazy unmount of the old root, and the final exec of the user
command. -/
def claimedInitOrder (e : InitEnv) : List InitAction :=
  InitAction.mustRun "[fs] mount namespace"
      ["mount", "--bind", "/proc/self/ns/net", "/var/run/toy-" ++ e.cid ++ ".ns"] ::
  InitAction.mustRun "[fs] mount private" ["mount", "--make-rprivate", "/"] ::
  InitAction.mustRun "[fs] mount rootfs(hack)" ["mount", "--bind", e.rootfs, e.rootfs] ::
  InitAction.mustRun "[fs] mount dev" ["mount", "--rbind", "/dev", e.rootfs ++ "/dev"] ::
  ((volActions e.rootfs (goSplit e.vols ';')).1.filter isVolMountAct ++
   [InitAction.mustRun "[net] set loopback up" ["ip", "link", "set", "lo", "up"],
    InitAction.waitVethStep e.veth,
    InitAction.mustRun "[net] assign IP" ["ip", "addr", "add", e.cip ++ "/24", "dev", "eth0"],
    InitAction.mustRun "[net] set default route" ["ip", "route", "add", "default", "via", "10.200.0.1"],
    InitAction.mustRun "[net] set hostname" ["hostname", "toy-" ++ e.cid],
    InitAction.mkdirAllHard (e.rootfs ++ "/old_root"),
    InitAction.runOrErrStep "[fs] pivot_root" ["pivot_root", e.rootfs, e.rootfs ++ "/old_root"],
    InitAction.chdirStep "/",
    InitAction.mustRun "[fs] mount proc" ["mount", "-t", "proc", "blabla", "/proc"],
    InitAction.mustRun "[fs] umount old_root" ["umount", "-l", "/old_root"],
    InitAction.mustRun "[fs] exec cmd" ["/bin/bash", "-c", "exec " ++ e.cmd]])

theorem runInitSteps_eq (fails : InitAction → Bool) :
    ∀ l : List InitAction,
      runInitSteps fails l =
        (l.takeWhile (fun a => !(fatalStep a && fails a)) ++
          (l.dropWhile (fun a => !(fatalStep a && fails a))).take 1,
         (l.dropWhile (fun a => !(fatalStep a && fails a))).isEmpty) := by
  intro l
  induction l with
  | nil => simp [runInitSteps]
  | cons a rest ih =>
    simp only [runInitSteps, List.takeWhile_cons, List.dropWhile_cons]
    cases h : fatalStep a && fails a with
    | false => simp [ih]
    | true => simp

/-- C6: with well-formed volume mappings, the init trace equals the
source order (the specified steps plus the two diagnostic extras: the
`eth0` up between address and route, and the `ip addr` listing before
the exec); the order named by the specification is a subsequence of the
trace; every specified step is fatal on failure; and executing the trace
runs the failure-free prefix, attempts the first failing fatal step and
aborts there, completing only when no fatal step fails. -/
theorem init_sequence_order (e : InitEnv)
    (hvols : (volActions e.rootfs (goSplit e.vols ';')).2 = true) :
    ((containerInitActions e).1 =
      InitAction.mustRun "[fs] mount namespace"
          ["mount", "--bind", "/proc/self/ns/net", "/var/run/toy-" ++ e.cid ++ ".ns"] ::
      InitAction.mustRun "[fs] mount private" ["mount", "--make-rprivate", "/"] ::
      InitAction.mustRun "[fs] mount rootfs(hack)" ["mount", "--bind", e.rootfs, e.rootfs] ::
      InitAction.mustRun "[fs] mount dev" ["mount", "--rbind", "/dev", e.rootfs ++ "/dev"] ::
      ((volActions e.rootfs (goSplit e.vols ';')).1 ++ postVolActions e))
    ∧ List.Sublist (claimedInitOrder e) (containerInitActions e).1
    ∧ (∀ a ∈ claimedInitOrder e, fatalStep a = true)
    ∧ (∀ fails : InitAction → Bool,
        runInitSteps fails (containerInitActions e).1 =
          ((containerInitActions e).1.takeWhile (fun a => !(fatalStep a && fails a)) ++
            ((containerInitActions e).1.dropWhile (fun a => !(fatalStep a && fails a))).take 1,
           ((containerInitActions e).1.dropWhile (fun a => !(fatalStep a && fails a))).isEmpty)) := by
  have htrace : (containerInitActions e).1 =
      InitAction.mustRun "[fs] mount namespace"
          ["mount", "--bind", "/proc/self/ns/net", "/var/run/toy-" ++ e.cid ++ ".ns"] ::
      InitAction.mustRun "[fs] mount private" ["mount", "--make-rprivate", "/"] ::
      InitAction.mustRun "[fs] mount rootfs(hack)" ["mount", "--bind", e.rootfs, e.rootfs] ::
      InitAction.mustRun "[fs] mount dev" ["mount", "--rbind", "/dev", e.rootfs ++ "/dev"] ::
      ((volActions e.rootfs (goSplit e.vols ';')).1 ++ postVolActions e) := by
    simp only [containerInitActions, hvols, if_true]
  have hpost : List.Sublist
      [InitAction.mustRun "[net] set loopback up" ["ip", "link", "set", "lo", "up"],
       InitAction.waitVethStep e.veth,
       InitAction.mustRun "[net] assign IP" ["ip", "addr", "add", e.cip ++ "/24", "dev", "eth0"],
       InitAction.mustRun "[net] set default route" ["ip", "route", "add", "default", "via", "10.200.0.1"],
       InitAction.mustRun "[net] set hostname" ["hostname", "toy-" ++ e.cid],
       InitAction.mkdirAllHard (e.rootfs ++ "/old_root"),
       InitAction.runOrErrStep "[fs] pivot_root" ["pivot_root", e.rootfs, e.rootfs ++ "/old_root"],
       InitAction.chdirStep "/",
       InitAction.mustRun "[fs] mount proc" ["mount", "-t", "proc", "blabla", "/proc"],
       InitAction.mustRun "[fs] umount old_root" ["umount", "-l", "/old_root"],
       InitAction.mustRun "[fs] exec cmd" ["/bin/bash", "-c", "exec " ++ e.cmd]]
        (postVolActions e) := by
    rw [postVolActions]
    exact List.Sublist.cons₂ _ (List.Sublist.cons₂ _ (List.Sublist.cons₂ _ (List.Sublist.cons _
      (List.Sublist.cons₂ _ (List.Sublist.cons₂ _ (List.Sublist.cons₂ _ (List.Sublist.cons₂ _
      (List.Sublist.cons₂ _ (List.Sublist.cons₂ _ (List.Sublist.cons₂ _ (List.Sublist.cons _
      (List.Sublist.cons₂ _ List.Sublist.slnil))))))))))))
  refine ⟨htrace, ?_, ?_, fun fails => runInitSteps_eq fails _⟩
  · rw [htrace, claimedInitOrder]
    exact List.Sublist.cons₂ _ (List.Sublist.cons₂ _ (List.Sublist.cons₂ _ (List.Sublist.cons₂ _
      (List.Sublist.append (List.filter_sublist _) hpost))))
  · intro a ha
    simp only [claimedInitOrder, List.mem_cons, List.mem_append] at ha
    rcases ha with rfl | rfl | rfl | rfl | ha
    · rfl
    · rfl
    · rfl
    · rfl
    rcases ha with hf | hrest
    · have hv := (List.mem_filter.mp hf).2
      cases a <;> simp_all [isVolMountAct, fatalStep]
    · simp only [List.mem_cons, List.not_mem_nil, or_false] at hrest
      rcases hrest with rfl | rfl | rfl | rfl | rfl | rfl | rfl | rfl | rfl | rfl | rfl <;> rfl

/-- Witness for C6: a run with no volumes has well-formed volume
mappings, and the specified order is a subsequence of its trace. -/
theorem init_sequence_order_witness :
    ((volActions (InitEnv.mk "/r" "c" "10.200.0.11" "vethcabc" "" "sh").rootfs
        (goSplit (InitEnv.mk "/r" "c" "10.200.0.11" "vethcabc" "" "sh").vols ';')).2 = true) ∧
    List.Sublist (claimedInitOrder (InitEnv.mk "/r" "c" "10.200.0.11" "vethcabc" "" "sh"))
      (containerInitActions (InitEnv.mk "/r" "c" "10.200.0.11" "vethcabc" "" "sh")).1 :=
  ⟨by decide,
   (init_sequence_order (InitEnv.mk "/r" "c" "10.200.0.11" "vethcabc" "" "sh") (by decide)).2.1⟩

end ToyDocker
